import Mathlib

/-!
Shallow embedding of the SMB byte-range lock service
(usr/src/uts/common/fs/smbsrv/smb_lock_svc.c).

Machine integers (uint64_t offsets/lengths) are modelled as Nat with an
explicit `% 2 ^ 64` wherever the C code performs an addition that may
overflow; comparisons of in-range values need no reduction.  The NT status
codes that the module produces are modelled by the inductive `Status`.
Concurrency (the condition-variable sleep in smb_lock_wait, the lock-list
rwlock, the conflict-list bookkeeping) is abstracted: the table contents
observed at each grant-rule evaluation and the outcome of each wait are
supplied by environment oracles `tables : Nat → List SmbLock` and
`waits : Nat → WaitOutcome`, and the retry loop of smb_lock_range is
fuel-indexed.
-/

/-- The modulus 2 ^ 64 of uint64_t arithmetic. -/
def w64 : Nat := 2 ^ 64

/-- SMB_LOCK_TYPE_READONLY / SMB_LOCK_TYPE_READWRITE. -/
inductive LockType where
  | readonly
  | readwrite
deriving DecidableEq, Repr

/-- The fields of struct smb_lock that the lock service reads: range, type,
and the four-part owner identity copied from the request by smb_lock_create.
The timing and wait-state fields (l_end_time, l_blocked_by, l_conflict_list)
are abstracted into the wait oracle. -/
structure SmbLock where
  l_start : Nat
  l_length : Nat
  l_type : LockType
  l_file : Nat
  l_session_kid : Nat
  l_pid : Nat
  l_uid : Nat
  l_indefinite : Bool
deriving DecidableEq, Repr

/-- The identity fields of struct smb_request consulted by the lock rules:
sr->fid_ofile, sr->session->s_kid, sr->smb_pid, sr->smb_uid. -/
structure SmbRequest where
  fid_ofile : Nat
  s_kid : Nat
  smb_pid : Nat
  smb_uid : Nat
deriving DecidableEq, Repr

/-- The fields of smb_ofile_t used by smb_lock_range: whether the file is
still open (smb_ofile_is_open), the last-failed-lock offset f_llf_pos and
its validity bit SMB_OFLAGS_LLF_POS_VALID of f_flags. -/
structure OFile where
  isOpen : Bool
  f_llf_pos : Nat
  f_llf_valid : Bool
deriving DecidableEq, Repr

/-- NT status codes returned by the lock service. -/
inductive Status where
  | success
  | lockNotGranted
  | fileLockConflict
  | rangeNotLocked
  | cancelled
deriving DecidableEq, Repr

/-- Second half of smb_lock_range_overlap: the two branches after the first
if/else-if chain has fallen through without returning. -/
def smb_lock_range_overlap_tail (lock : SmbLock) (start length : Nat) : Bool :=
  if (start + length) % w64 > (lock.l_start + lock.l_length) % w64 then
    decide (start < (lock.l_start + lock.l_length) % w64)
  else
    decide ((start + length) % w64 > lock.l_start)

/-- smb_lock_range_overlap: does the range (start, length) overlap the range
stored in `lock`?  All sums are uint64 additions, hence reduced mod 2 ^ 64. -/
def smb_lock_range_overlap (lock : SmbLock) (start length : Nat) : Bool :=
  if length = 0 ∨ lock.l_length = 0 then false
  else if start < lock.l_start then
    if (start + length) % w64 > lock.l_start then true
    else smb_lock_range_overlap_tail lock start length
  else if start < (lock.l_start + lock.l_length) % w64 then true
  else smb_lock_range_overlap_tail lock start length

/-- Outcome of smb_lock_range_lckrules: NT_STATUS_SUCCESS,
NT_STATUS_LOCK_NOT_GRANTED together with the conflicting lock written
through the clockp out-parameter, or NT_STATUS_RANGE_NOT_LOCKED when the
file has been closed. -/
inductive LckResult where
  | success
  | notGranted (clock : SmbLock)
  | rangeNotLocked
deriving DecidableEq, Repr

/-- Strict four-part owner equality used by the grant rules and unlock:
lock->l_file == sr->fid_ofile && lock->l_session_kid == sr->session->s_kid
&& lock->l_pid == sr->smb_pid && lock->l_uid == sr->smb_uid. -/
def sameOwnerStrict (sr : SmbRequest) (lock : SmbLock) : Prop :=
  lock.l_file = sr.fid_ofile ∧ lock.l_session_kid = sr.s_kid ∧
  lock.l_pid = sr.smb_pid ∧ lock.l_uid = sr.smb_uid

instance (sr : SmbRequest) (lock : SmbLock) : Decidable (sameOwnerStrict sr lock) := by
  unfold sameOwnerStrict; infer_instance

/-- The member-scan loop of smb_lock_range_lckrules over the node lock list,
in list order.  A member is skipped when it does not overlap the candidate,
when member and candidate are both read locks, or when the candidate is a
read lock, the member a write lock, and the member's owner equals the
requester under the strict four-part equality; otherwise the scan stops and
reports that member. -/
def smb_lckrules_scan (sr : SmbRequest) (dlock : SmbLock) : List SmbLock → LckResult
  | [] => LckResult.success
  | lock :: rest =>
    if smb_lock_range_overlap lock dlock.l_start dlock.l_length = false then
      smb_lckrules_scan sr dlock rest
    else if lock.l_type = LockType.readonly ∧ dlock.l_type = LockType.readonly then
      smb_lckrules_scan sr dlock rest
    else if (dlock.l_type = LockType.readonly ∧ ¬ lock.l_type = LockType.readonly) ∧
        sameOwnerStrict sr lock then
      smb_lckrules_scan sr dlock rest
    else LckResult.notGranted lock

/-- smb_lock_range_lckrules: the file-closed check followed by the member
scan.  `fileOpen` is smb_ofile_is_open(file); `locks` is the node's
n_lock_list in list order. -/
def smb_lock_range_lckrules (sr : SmbRequest) (fileOpen : Bool)
    (locks : List SmbLock) (dlock : SmbLock) : LckResult :=
  if fileOpen = false then LckResult.rangeNotLocked
  else smb_lckrules_scan sr dlock locks

/-- Conflict predicate of the grant rules stated as in the specification: a
member conflicts with the candidate iff it overlaps, the two are not both
Shared, and it is not the case that the candidate is Shared, the member
Exclusive, and the member's owner equals the requester's owner under the
strict four-part equality. -/
def lckConflicting (sr : SmbRequest) (dlock : SmbLock) (lock : SmbLock) : Bool :=
  smb_lock_range_overlap lock dlock.l_start dlock.l_length &&
  ! decide (lock.l_type = LockType.readonly ∧ dlock.l_type = LockType.readonly) &&
  ! decide ((dlock.l_type = LockType.readonly ∧ lock.l_type = LockType.readwrite) ∧
      sameOwnerStrict sr lock)

theorem lckrules_scan_eq_find (sr : SmbRequest) (dlock : SmbLock) (locks : List SmbLock) :
    smb_lckrules_scan sr dlock locks =
      match locks.find? (lckConflicting sr dlock) with
      | none => LckResult.success
      | some c => LckResult.notGranted c := by
  induction locks with
  | nil => rfl
  | cons lock rest ih =>
    have htype : ∀ t : LockType, ¬ t = LockType.readonly ↔ t = LockType.readwrite := by
      intro t; cases t <;> simp
    by_cases h1 : smb_lock_range_overlap lock dlock.l_start dlock.l_length = false
    · have hp : lckConflicting sr dlock lock = false := by
        simp [lckConflicting, h1]
      simp [smb_lckrules_scan, h1, List.find?_cons, hp, ih]
    · have h1' : smb_lock_range_overlap lock dlock.l_start dlock.l_length = true := by
        simpa using h1
      by_cases h2 : lock.l_type = LockType.readonly ∧ dlock.l_type = LockType.readonly
      · have hp : lckConflicting sr dlock lock = false := by
          simp [lckConflicting, h2]
        simp [smb_lckrules_scan, h1, h2, List.find?_cons, hp, ih]
      · by_cases h3 : (dlock.l_type = LockType.readonly ∧ ¬ lock.l_type = LockType.readonly) ∧
            sameOwnerStrict sr lock
        · have hp : lckConflicting sr dlock lock = false := by
            simp only [lckConflicting, Bool.and_eq_false_iff]
            right
            simpa [htype lock.l_type] using h3
          simp [smb_lckrules_scan, h1, h2, h3, List.find?_cons, hp, ih]
        · have hp : lckConflicting sr dlock lock = true := by
            simp only [lckConflicting, Bool.and_eq_true, h1', true_and,
              Bool.not_eq_true', decide_eq_false_iff_not]
            constructor
            · exact h2
            · simpa [htype lock.l_type] using h3
          simp [smb_lckrules_scan, h1, h2, h3, List.find?_cons, hp]

/-- Claim C1: grant-rule evaluation on an open file scans the active members
in list order and returns the first member that conflicts with the candidate
(overlapping, not both Shared, and not the Shared-candidate-over-own-
Exclusive exception under strict four-part owner equality) with the
lock-not-granted outcome; the candidate is granted exactly when no member
conflicts. -/
theorem lckrules_first_conflict (sr : SmbRequest) (dlock : SmbLock) (locks : List SmbLock) :
    smb_lock_range_lckrules sr true locks dlock =
      match locks.find? (lckConflicting sr dlock) with
      | none => LckResult.success
      | some c => LckResult.notGranted c := by
  simpa [smb_lock_range_lckrules] using lckrules_scan_eq_find sr dlock locks

/-- Mathematical intersection of the half-open intervals
[s1, s1 + n1) and [s2, s2 + n2) over the natural numbers, as the
specification words it. -/
def intervalsIntersect (s1 n1 s2 n2 : Nat) : Prop :=
  ∃ x : Nat, (s1 ≤ x ∧ x < s1 + n1) ∧ (s2 ≤ x ∧ x < s2 + n2)

theorem intervalsIntersect_iff (s1 n1 s2 n2 : Nat) (h1 : n1 ≠ 0) (h2 : n2 ≠ 0) :
    intervalsIntersect s1 n1 s2 n2 ↔ (s2 < s1 + n1 ∧ s1 < s2 + n2) := by
  constructor
  · rintro ⟨x, hx⟩
    omega
  · intro h
    exact ⟨max s1 s2, by omega⟩

theorem overlap_eq_false_of_zero (lock : SmbLock) (s n : Nat)
    (h : n = 0 ∨ lock.l_length = 0) :
    smb_lock_range_overlap lock s n = false := by
  unfold smb_lock_range_overlap
  rw [if_pos h]

theorem overlap_no_wrap_iff (lock : SmbLock) (s n : Nat)
    (hn : n ≠ 0) (hl : lock.l_length ≠ 0)
    (h1 : lock.l_start + lock.l_length < w64) (h2 : s + n < w64) :
    smb_lock_range_overlap lock s n = true ↔
      (s < lock.l_start + lock.l_length ∧ lock.l_start < s + n) := by
  unfold smb_lock_range_overlap smb_lock_range_overlap_tail
  rw [Nat.mod_eq_of_lt h1, Nat.mod_eq_of_lt h2]
  split_ifs <;> simp_all <;> omega

/-- Claim C3 (amended): overlaps is false whenever either range has zero
length; and for ranges whose start + length does not wrap around 2 ^ 64,
overlaps is true iff the half-open intervals intersect.  (As originally
stated, over all 64-bit ranges, the claim fails: see the counterexample.) -/
theorem overlap_iff_intersect_no_wrap (lock : SmbLock) (s n : Nat) :
    ((n = 0 ∨ lock.l_length = 0) → smb_lock_range_overlap lock s n = false) ∧
    (n ≠ 0 → lock.l_length ≠ 0 →
      lock.l_start + lock.l_length < w64 → s + n < w64 →
      (smb_lock_range_overlap lock s n = true ↔
        intervalsIntersect lock.l_start lock.l_length s n)) := by
  constructor
  · exact overlap_eq_false_of_zero lock s n
  · intro hn hl h1 h2
    rw [overlap_no_wrap_iff lock s n hn hl h1 h2,
      intervalsIntersect_iff lock.l_start lock.l_length s n hl hn]

theorem overlap_iff_intersect_witness :
    smb_lock_range_overlap (SmbLock.mk 100 10 LockType.readonly 0 0 0 0 false) 105 10 = true :=
  ((overlap_iff_intersect_no_wrap (SmbLock.mk 100 10 LockType.readonly 0 0 0 0 false)
      105 10).2 (by decide) (by decide) (by decide) (by decide)).mpr
    ⟨105, by decide⟩

/-- Counterexample to claim C3 as stated: the member range [2^64 - 1, 2)
(whose 64-bit end wraps to 1) and the candidate range [0, 1) have nonzero
lengths, and as subsets of the naturals the half-open intervals
[2^64 - 1, 2^64 + 1) and [0, 1) do not intersect, yet the code reports an
overlap. -/
theorem overlap_claim_cex :
    smb_lock_range_overlap (SmbLock.mk 0 1 LockType.readonly 0 0 0 0 false)
        (w64 - 1) 2 = true ∧
    ¬ intervalsIntersect 0 1 (w64 - 1) 2 := by
  constructor
  · decide
  · rintro ⟨x, ⟨-, hx1⟩, hx2, -⟩
    unfold w64 at hx2
    omega

/-- Claim C4 (amended): the overlap predicate is symmetric for all pairs of
ranges whose start + length does not wrap around 2 ^ 64; with wraparound
symmetry can fail (see the counterexample). -/
theorem overlap_symm_no_wrap (a b : SmbLock)
    (ha : a.l_start + a.l_length < w64) (hb : b.l_start + b.l_length < w64) :
    smb_lock_range_overlap a b.l_start b.l_length =
      smb_lock_range_overlap b a.l_start a.l_length := by
  by_cases hz : b.l_length = 0 ∨ a.l_length = 0
  · rw [overlap_eq_false_of_zero a b.l_start b.l_length (by tauto),
      overlap_eq_false_of_zero b a.l_start a.l_length (by tauto)]
  · push_neg at hz
    rw [Bool.eq_iff_iff,
      overlap_no_wrap_iff a b.l_start b.l_length hz.1 hz.2 ha hb,
      overlap_no_wrap_iff b a.l_start a.l_length hz.2 hz.1 hb ha]
    omega

theorem overlap_symm_witness :
    smb_lock_range_overlap (SmbLock.mk 0 10 LockType.readonly 0 0 0 0 false) 5 10 =
      smb_lock_range_overlap (SmbLock.mk 5 10 LockType.readwrite 1 2 3 4 false) 0 10 :=
  overlap_symm_no_wrap (SmbLock.mk 0 10 LockType.readonly 0 0 0 0 false)
    (SmbLock.mk 5 10 LockType.readwrite 1 2 3 4 false) (by decide) (by decide)

/-- Counterexample to claim C4 as stated: with the wrapping range
[2^64 - 1, 2) against [0, 1), the predicate reports an overlap in one
argument order and none in the other. -/
theorem overlap_symm_cex :
    smb_lock_range_overlap (SmbLock.mk 0 1 LockType.readonly 0 0 0 0 false)
        (w64 - 1) 2 = true ∧
    smb_lock_range_overlap (SmbLock.mk (w64 - 1) 2 LockType.readonly 0 0 0 0 false)
        0 1 = false := by
  constructor <;> decide

/-- Claim C10: a candidate of Exclusive type conflicts with every
overlapping active member, including a member with the requester's own full
four-part owner identity: the same-owner exception applies only to a Shared
candidate over an Exclusive member, so the grant-rule evaluation reports a
conflict whenever any member overlaps an Exclusive candidate. -/
theorem exclusive_candidate_conflicts (sr : SmbRequest) (dlock : SmbLock)
    (locks : List SmbLock) (hx : dlock.l_type = LockType.readwrite)
    (m : SmbLock) (hm : m ∈ locks)
    (hov : smb_lock_range_overlap m dlock.l_start dlock.l_length = true) :
    ∃ c, smb_lock_range_lckrules sr true locks dlock = LckResult.notGranted c := by
  have hconf : lckConflicting sr dlock m = true := by
    simp [lckConflicting, hov, hx]
  have hscan : smb_lock_range_lckrules sr true locks dlock =
      smb_lckrules_scan sr dlock locks := by
    simp [smb_lock_range_lckrules]
  rw [hscan, lckrules_scan_eq_find]
  cases hfind : locks.find? (lckConflicting sr dlock) with
  | none =>
    exact absurd hconf (by simpa using List.find?_eq_none.mp hfind m hm)
  | some c => exact ⟨c, rfl⟩

theorem exclusive_candidate_conflicts_witness :
    ∃ c, smb_lock_range_lckrules (SmbRequest.mk 1 2 3 4) true
        [SmbLock.mk 0 10 LockType.readwrite 1 2 3 4 false]
        (SmbLock.mk 5 10 LockType.readwrite 1 2 3 4 false) =
      LckResult.notGranted c :=
  exclusive_candidate_conflicts (SmbRequest.mk 1 2 3 4)
    (SmbLock.mk 5 10 LockType.readwrite 1 2 3 4 false)
    [SmbLock.mk 0 10 LockType.readwrite 1 2 3 4 false] rfl
    (SmbLock.mk 0 10 LockType.readwrite 1 2 3 4 false) (by decide) (by decide)

/-- FILE_READ_DATA / FILE_WRITE_DATA: the two desired-access values that the
asserts of smb_lock_range_access admit (exactly one of the two bits). -/
inductive Access where
  | read
  | write
deriving DecidableEq, Repr

/-- Loose two-part owner equality used only by the access check:
lock->l_session_kid == sr->session->s_kid && lock->l_pid == sr->smb_pid.
The user id and the open-file handle are not consulted. -/
def sameOwnerLoose (sr : SmbRequest) (lock : SmbLock) : Prop :=
  lock.l_session_kid = sr.s_kid ∧ lock.l_pid = sr.smb_pid

instance (sr : SmbRequest) (lock : SmbLock) : Decidable (sameOwnerLoose sr lock) := by
  unfold sameOwnerLoose; infer_instance

/-- The member-scan loop of smb_lock_range_access: skip a non-overlapping
member, skip a read-lock member when read access is desired, skip a
write-lock member whose owner matches loosely, else stop with
NT_STATUS_FILE_LOCK_CONFLICT. -/
def smb_access_scan (sr : SmbRequest) (start length : Nat) (desired : Access) :
    List SmbLock → Status
  | [] => Status.success
  | lock :: rest =>
    if smb_lock_range_overlap lock start length = false then
      smb_access_scan sr start length desired rest
    else if lock.l_type = LockType.readonly ∧ desired = Access.read then
      smb_access_scan sr start length desired rest
    else if lock.l_type = LockType.readwrite ∧ sameOwnerLoose sr lock then
      smb_access_scan sr start length desired rest
    else Status.fileLockConflict

/-- smb_lock_range_access: scan the node lock list under the reader lock. -/
def smb_lock_range_access (sr : SmbRequest) (locks : List SmbLock)
    (start length : Nat) (desired : Access) : Status :=
  smb_access_scan sr start length desired locks

/-- Conflict predicate of the access check stated as in the specification:
a member blocks the desired access iff it overlaps, it is not a Shared
member against a Read request, and it is not an Exclusive member whose
owner matches the requester under the loose two-part equality (session id
and process id only). -/
def accessConflicting (sr : SmbRequest) (start length : Nat) (desired : Access)
    (lock : SmbLock) : Bool :=
  smb_lock_range_overlap lock start length &&
  ! decide (lock.l_type = LockType.readonly ∧ desired = Access.read) &&
  ! decide (lock.l_type = LockType.readwrite ∧ sameOwnerLoose sr lock)


theorem smb_access_scan_cons (sr : SmbRequest) (start length : Nat)
    (desired : Access) (lock : SmbLock) (rest : List SmbLock) :
    smb_access_scan sr start length desired (lock :: rest) =
      if accessConflicting sr start length desired lock = true then
        Status.fileLockConflict
      else smb_access_scan sr start length desired rest := by
  simp only [smb_access_scan]
  by_cases h1 : smb_lock_range_overlap lock start length = false
  · have hp : accessConflicting sr start length desired lock = false := by
      simp [accessConflicting, h1]
    rw [if_pos h1, hp]
    simp
  · rw [if_neg h1]
    have h1' : smb_lock_range_overlap lock start length = true := by
      simpa using h1
    by_cases h2 : lock.l_type = LockType.readonly ∧ desired = Access.read
    · have hp : accessConflicting sr start length desired lock = false := by
        simp [accessConflicting, h2.1, h2.2]
      rw [if_pos h2, hp]
      simp
    · rw [if_neg h2]
      by_cases h3 : lock.l_type = LockType.readwrite ∧ sameOwnerLoose sr lock
      · have hp : accessConflicting sr start length desired lock = false := by
          simp [accessConflicting, h3.1, h3.2]
        rw [if_pos h3, hp]
        simp
      · have hp : accessConflicting sr start length desired lock = true := by
          simp [accessConflicting, h1', h2, h3]
        rw [if_neg h3, hp]
        simp

/-- Claim C7: the access check succeeds exactly when the scan completes,
skipping non-overlapping members, Shared members under a Read request, and
Exclusive members owned loosely (session id and process id only) by the
requester; any other overlapping member makes it return
FileLockConflict. -/
theorem access_check_characterization (sr : SmbRequest) (locks : List SmbLock)
    (start length : Nat) (desired : Access) :
    smb_lock_range_access sr locks start length desired =
      if locks.any (accessConflicting sr start length desired) then
        Status.fileLockConflict
      else Status.success := by
  induction locks with
  | nil => rfl
  | cons lock rest ih =>
    rw [smb_lock_range_access] at ih ⊢
    rw [smb_access_scan_cons, ih]
    by_cases hp : accessConflicting sr start length desired lock = true
    · simp [List.any_cons, hp]
    · simp only [Bool.not_eq_true] at hp
      simp [List.any_cons, hp]

/-- The per-member test of smb_lock_range_ulckrules: the request's start and
length equal the record's, and the record's four-part owner identity equals
the requester's. -/
def ulckMatch (sr : SmbRequest) (start length : Nat) (lock : SmbLock) : Bool :=
  decide (start = lock.l_start ∧ length = lock.l_length ∧ sameOwnerStrict sr lock)

/-- smb_lock_range_ulckrules: scan the node lock list for the first record
that exactly matches the unlock request; none means
NT_STATUS_RANGE_NOT_LOCKED. -/
def smb_lock_range_ulckrules (sr : SmbRequest) (locks : List SmbLock)
    (start length : Nat) : Option SmbLock :=
  locks.find? (ulckMatch sr start length)

/-- smb_unlock_range: apply the unlocking rules; on a match remove the
matched record from the node lock list (and destroy it), on no match return
NT_STATUS_RANGE_NOT_LOCKED leaving the list unchanged. -/
def smb_unlock_range (sr : SmbRequest) (locks : List SmbLock)
    (start length : Nat) : Status × List SmbLock :=
  match smb_lock_range_ulckrules sr locks start length with
  | none => (Status.rangeNotLocked, locks)
  | some _ => (Status.success, locks.eraseP (ulckMatch sr start length))

theorem find_eraseP_first (p : SmbLock → Bool) (pre post : List SmbLock)
    (c : SmbLock) (hc : p c = true) (hpre : ∀ x ∈ pre, p x = false) :
    (pre ++ c :: post).find? p = some c ∧
      (pre ++ c :: post).eraseP p = pre ++ post := by
  induction pre with
  | nil => simp [List.find?_cons, hc, List.eraseP_cons, hc]
  | cons a pre ih =>
    have ha : p a = false := hpre a (by simp)
    have ih' := ih fun x hx => hpre x (by simp [hx])
    simp [List.find?_cons, ha, List.eraseP_cons, ih'.1, ih'.2]

/-- Claim C6: unlock succeeds iff some active record matches the request
exactly in start, length, and full four-part owner identity; when no record
matches it returns RangeNotLocked and removes nothing, and when the first
matching record is c the call returns Success with exactly c removed from
the table. -/
theorem unlock_exact_match (sr : SmbRequest) (locks : List SmbLock)
    (start length : Nat) :
    ((∀ lock ∈ locks,
        ¬ (start = lock.l_start ∧ length = lock.l_length ∧ sameOwnerStrict sr lock)) →
      smb_unlock_range sr locks start length = (Status.rangeNotLocked, locks)) ∧
    (∀ pre c post, locks = pre ++ c :: post →
      (start = c.l_start ∧ length = c.l_length ∧ sameOwnerStrict sr c) →
      (∀ x ∈ pre,
        ¬ (start = x.l_start ∧ length = x.l_length ∧ sameOwnerStrict sr x)) →
      smb_unlock_range sr locks start length = (Status.success, pre ++ post)) := by
  constructor
  · intro h
    have hfind : locks.find? (ulckMatch sr start length) = none := by
      rw [List.find?_eq_none]
      intro x hx
      simpa [ulckMatch] using h x hx
    simp [smb_unlock_range, smb_lock_range_ulckrules, hfind]
  · intro pre c post hsplit hc hpre
    have hc' : ulckMatch sr start length c = true := by
      simpa [ulckMatch] using hc
    have hpre' : ∀ x ∈ pre, ulckMatch sr start length x = false := by
      intro x hx
      simpa [ulckMatch] using hpre x hx
    have h := find_eraseP_first (ulckMatch sr start length) pre post c hc' hpre'
    subst hsplit
    simp [smb_unlock_range, smb_lock_range_ulckrules, h.1, h.2]

theorem unlock_exact_match_witness :
    smb_unlock_range (SmbRequest.mk 1 2 3 4)
        [SmbLock.mk 5 7 LockType.readonly 1 2 3 4 false] 5 7 =
      (Status.success, []) := by
  have h := (unlock_exact_match (SmbRequest.mk 1 2 3 4)
      [SmbLock.mk 5 7 LockType.readonly 1 2 3 4 false] 5 7).2
      [] (SmbLock.mk 5 7 LockType.readonly 1 2 3 4 false) [] rfl
      (by decide) (by simp)
  simpa using h

/-- Outcome of one smb_lock_wait call as observed by the retry loop:
NT_STATUS_SUCCESS (the sleep ended and the request is still active) or
NT_STATUS_CANCELLED (timeout expiry or external cancellation — reported
identically). -/
inductive WaitOutcome where
  | resumed
  | cancelled
deriving DecidableEq, Repr

/-- smb_lock_create: build the candidate record from the request.  The
range, type and the four-part owner identity are copied from the arguments
and the request; timeout 0xffffffff sets the indefinite-wait flag.  The
absolute deadline l_end_time feeds only cv_timedwait, which is abstracted
into the wait oracle. -/
def smb_lock_create (sr : SmbRequest) (start length : Nat)
    (locktype : LockType) (timeout : Nat) : SmbLock :=
  SmbLock.mk start length locktype sr.fid_ofile sr.s_kid sr.smb_pid sr.smb_uid
    (timeout = 0xffffffff)

/-- The raw status that the retry loop of smb_lock_range derives from one
grant-rule evaluation. -/
def rawLockStatus : LckResult → Status
  | LckResult.success => Status.success
  | LckResult.rangeNotLocked => Status.rangeNotLocked
  | LckResult.notGranted _ => Status.lockNotGranted

/-- The retry loop of smb_lock_range (the for(;;) over
smb_lock_range_lckrules and smb_lock_wait).  `tables k` is the content of
the node lock list observed while holding its writer lock at the k-th
evaluation; `waits k` is the outcome of the k-th smb_lock_wait call.  The
result carries the final raw status, the index of the last evaluation
(evaluation count minus one), and the number of wait invocations; `none`
means the fuel ran out before the loop broke. -/
def smb_lock_loop (sr : SmbRequest) (fileOpen : Bool) (dlock : SmbLock)
    (timeout : Nat) (tables : Nat → List SmbLock) (waits : Nat → WaitOutcome)
    (k : Nat) : Nat → Option (Status × Nat × Nat)
  | 0 => none
  | fuel + 1 =>
    match smb_lock_range_lckrules sr fileOpen (tables k) dlock with
    | LckResult.success => some (Status.success, k, k)
    | LckResult.rangeNotLocked => some (Status.rangeNotLocked, k, k)
    | LckResult.notGranted _ =>
      if timeout = 0 then some (Status.lockNotGranted, k, k)
      else
        match waits k with
        | WaitOutcome.cancelled => some (Status.cancelled, k, k + 1)
        | WaitOutcome.resumed =>
          smb_lock_loop sr fileOpen dlock timeout tables waits (k + 1) fuel

/-- The tail of smb_lock_range after the retry loop has broken with raw
status `result` while the node lock list content is `table`: on success
insert the candidate at the tail of the list; on failure refine
NT_STATUS_LOCK_NOT_GRANTED into NT_STATUS_FILE_LOCK_CONFLICT under the
three conditions of the source, then record the failed start offset in the
file (f_llf_pos and the SMB_OFLAGS_LLF_POS_VALID flag) and free the
candidate. -/
def smb_lock_range_finish (lock : SmbLock) (file : OFile) (timeout : Nat)
    (result : Status) (table : List SmbLock) : Status × OFile × List SmbLock :=
  if result = Status.success then
    (Status.success, file, table ++ [lock])
  else
    let r :=
      if result = Status.lockNotGranted then
        let a := if timeout ≠ 0 then Status.fileLockConflict else result
        let b :=
          if 0xef000000 ≤ lock.l_start ∧ lock.l_start.testBit 63 = false then
            Status.fileLockConflict
          else a
        if file.f_llf_valid = true ∧ lock.l_start = file.f_llf_pos then
          Status.fileLockConflict
        else b
      else result
    (r, OFile.mk file.isOpen lock.l_start true, table)

/-- smb_lock_range: create the candidate record, run the retry loop, then
finish on the node lock list content observed at the last evaluation. -/
def smb_lock_range (sr : SmbRequest) (file : OFile) (start length : Nat)
    (timeout : Nat) (locktype : LockType) (tables : Nat → List SmbLock)
    (waits : Nat → WaitOutcome) (fuel : Nat) :
    Option (Status × OFile × List SmbLock) :=
  match smb_lock_loop sr file.isOpen (smb_lock_create sr start length locktype timeout)
      timeout tables waits 0 fuel with
  | none => none
  | some (result, k, _) =>
    some (smb_lock_range_finish (smb_lock_create sr start length locktype timeout)
      file timeout result (tables k))

/-- Claim C2: when the raw outcome of the retry loop is LockNotGranted, the
returned status is FileLockConflict exactly when the timeout is nonzero, or
the start offset is at least 0xef000000 with bit 63 of the 64-bit value
clear, or the file's last-failed-offset marker is valid and equals this
start; otherwise LockNotGranted stands. -/
theorem lock_status_refinement (lock : SmbLock) (file : OFile) (timeout : Nat)
    (table : List SmbLock) :
    (smb_lock_range_finish lock file timeout Status.lockNotGranted table).1 =
      if timeout ≠ 0 ∨
          (0xef000000 ≤ lock.l_start ∧ lock.l_start.testBit 63 = false) ∨
          (file.f_llf_valid = true ∧ lock.l_start = file.f_llf_pos) then
        Status.fileLockConflict
      else Status.lockNotGranted := by
  by_cases h1 : timeout ≠ 0 <;>
    by_cases h2 : 0xef000000 ≤ lock.l_start ∧ lock.l_start.testBit 63 = false <;>
      by_cases h3 : file.f_llf_valid = true ∧ lock.l_start = file.f_llf_pos <;>
        simp [smb_lock_range_finish, h1, h2, h3]

theorem finish_components (lock : SmbLock) (file : OFile) (timeout : Nat)
    (r : Status) (table : List SmbLock) :
    (r = Status.success →
      smb_lock_range_finish lock file timeout r table =
        (Status.success, file, table ++ [lock])) ∧
    (r ≠ Status.success →
      ∃ st, smb_lock_range_finish lock file timeout r table =
          (st, OFile.mk file.isOpen lock.l_start true, table) ∧
        st ≠ Status.success) := by
  constructor
  · intro h
    subst h
    unfold smb_lock_range_finish
    simp
  · intro h
    unfold smb_lock_range_finish
    rw [if_neg h]
    refine ⟨_, rfl, ?_⟩
    dsimp only
    split_ifs <;> simp_all

/-- Claim C5: a lock request with timeout 0 evaluates the grant rules
exactly once and never invokes the wait operation: for any fuel of at least
one step, the loop returns after the evaluation at index 0 with zero wait
invocations, and the call's outcome is determined by that single
evaluation alone (it is Success exactly when the evaluation grants). -/
theorem lock_range_timeout_zero (sr : SmbRequest) (file : OFile)
    (start length : Nat) (locktype : LockType) (tables : Nat → List SmbLock)
    (waits : Nat → WaitOutcome) (fuel : Nat) :
    smb_lock_loop sr file.isOpen (smb_lock_create sr start length locktype 0)
        0 tables waits 0 (fuel + 1) =
      some (rawLockStatus (smb_lock_range_lckrules sr file.isOpen (tables 0)
        (smb_lock_create sr start length locktype 0)), 0, 0) ∧
    smb_lock_range sr file start length 0 locktype tables waits (fuel + 1) =
      some (smb_lock_range_finish (smb_lock_create sr start length locktype 0)
        file 0
        (rawLockStatus (smb_lock_range_lckrules sr file.isOpen (tables 0)
          (smb_lock_create sr start length locktype 0)))
        (tables 0)) := by
  have hloop : smb_lock_loop sr file.isOpen
      (smb_lock_create sr start length locktype 0) 0 tables waits 0 (fuel + 1) =
      some (rawLockStatus (smb_lock_range_lckrules sr file.isOpen (tables 0)
        (smb_lock_create sr start length locktype 0)), 0, 0) := by
    unfold smb_lock_loop
    cases h : smb_lock_range_lckrules sr file.isOpen (tables 0)
        (smb_lock_create sr start length locktype 0) <;>
      simp [rawLockStatus]
  refine ⟨hloop, ?_⟩
  unfold smb_lock_range
  rw [hloop]

/-- Claim C8: every lock call that returns a non-Success status sets the
file's last-failed-offset marker to the requested start and flags it valid;
a call that returns Success leaves the file state (marker value and flag)
unchanged. -/
theorem lock_range_failure_marker (sr : SmbRequest) (file : OFile)
    (start length timeout : Nat) (locktype : LockType)
    (tables : Nat → List SmbLock) (waits : Nat → WaitOutcome) (fuel : Nat)
    (st : Status) (f' : OFile) (tb : List SmbLock)
    (h : smb_lock_range sr file start length timeout locktype tables waits fuel =
      some (st, f', tb)) :
    (st ≠ Status.success → f' = OFile.mk file.isOpen start true) ∧
    (st = Status.success → f' = file) := by
  unfold smb_lock_range at h
  rcases hloop : smb_lock_loop sr file.isOpen
      (smb_lock_create sr start length locktype timeout) timeout tables waits
      0 fuel with _ | ⟨r, k, w⟩
  · rw [hloop] at h
    exact absurd h (by simp)
  · rw [hloop] at h
    simp only [Option.some.injEq] at h
    by_cases hr : r = Status.success
    · rw [(finish_components (smb_lock_create sr start length locktype timeout)
        file timeout r (tables k)).1 hr] at h
      simp only [Prod.mk.injEq] at h
      obtain ⟨h1, h2, h3⟩ := h
      constructor
      · intro hne
        exact absurd h1.symm hne
      · intro _
        exact h2.symm
    · obtain ⟨st0, heq, hne⟩ := (finish_components
        (smb_lock_create sr start length locktype timeout) file timeout r
        (tables k)).2 hr
      rw [heq] at h
      simp only [Prod.mk.injEq] at h
      obtain ⟨h1, h2, h3⟩ := h
      constructor
      · intro _
        exact h2.symm
      · intro hs
        exact absurd (h1 ▸ hs) hne

theorem lock_range_failure_marker_witness :
    OFile.mk true 0 true = OFile.mk (OFile.mk true 0 false).isOpen 0 true :=
  (lock_range_failure_marker (SmbRequest.mk 1 1 1 1) (OFile.mk true 0 false)
      0 10 0 LockType.readwrite
      (fun _ => [SmbLock.mk 0 10 LockType.readwrite 2 2 2 2 false])
      (fun _ => WaitOutcome.resumed) 1 Status.lockNotGranted
      (OFile.mk true 0 true) [SmbLock.mk 0 10 LockType.readwrite 2 2 2 2 false]
      (by decide)).1 (by decide)

/-- Claim C9: failure atomicity of lock — whatever raw status the retry
loop breaks with, the call returns the table observed at the last
evaluation with the candidate appended exactly when that status is Success;
on any non-Success status (conflict, cancellation, stale handle) the active
set is returned unchanged and the candidate is never inserted. -/
theorem lock_range_failure_atomic (sr : SmbRequest) (file : OFile)
    (start length timeout : Nat) (locktype : LockType)
    (tables : Nat → List SmbLock) (waits : Nat → WaitOutcome) (fuel : Nat)
    (st : Status) (k w : Nat)
    (h : smb_lock_loop sr file.isOpen
        (smb_lock_create sr start length locktype timeout) timeout tables
        waits 0 fuel = some (st, k, w)) :
    ∃ st' f', smb_lock_range sr file start length timeout locktype tables
          waits fuel =
        some (st', f',
          if st = Status.success then
            tables k ++ [smb_lock_create sr start length locktype timeout]
          else tables k) ∧
      (st' = Status.success ↔ st = Status.success) := by
  have hrange : smb_lock_range sr file start length timeout locktype tables
      waits fuel =
      some (smb_lock_range_finish
        (smb_lock_create sr start length locktype timeout) file timeout st
        (tables k)) := by
    unfold smb_lock_range
    rw [h]
  rw [hrange]
  by_cases hs : st = Status.success
  · subst hs
    rw [(finish_components (smb_lock_create sr start length locktype timeout)
      file timeout Status.success (tables k)).1 rfl]
    exact ⟨Status.success, file, by simp, by simp⟩
  · obtain ⟨st0, heq, hne⟩ := (finish_components
      (smb_lock_create sr start length locktype timeout) file timeout st
      (tables k)).2 hs
    rw [heq, if_neg hs]
    exact ⟨st0, OFile.mk file.isOpen
      (smb_lock_create sr start length locktype timeout).l_start true, rfl,
      by simp [hne, hs]⟩

theorem lock_range_failure_atomic_witness :
    ∃ st' f', smb_lock_range (SmbRequest.mk 1 1 1 1) (OFile.mk true 0 false)
          0 10 0 LockType.readwrite (fun _ => ([] : List SmbLock))
          (fun _ => WaitOutcome.resumed) 1 =
        some (st', f',
          if Status.success = Status.success then
            ([] : List SmbLock) ++
              [smb_lock_create (SmbRequest.mk 1 1 1 1) 0 10
                LockType.readwrite 0]
          else []) ∧
      (st' = Status.success ↔ Status.success = Status.success) :=
  lock_range_failure_atomic (SmbRequest.mk 1 1 1 1) (OFile.mk true 0 false)
    0 10 0 LockType.readwrite (fun _ => ([] : List SmbLock))
    (fun _ => WaitOutcome.resumed) 1 Status.success 0 0 (by decide)
